import Mathlib

/- A shallow embedding of `release/context.go` from the flux repository:
workload selection by the release context (`SelectWorkloads`), manifest
indexing (`WorkloadsForUpdate`) and manifest writing (`WriteUpdates`),
together with the collaborator interfaces they consume.  Go maps are
embedded as association lists with last-write-wins insertion; Go map
iteration order, which is unspecified, is represented by the order of the
association list, so theorems quantified over the list cover every
iteration order.  Errors are carried as their message text. -/

/-- `flux.ResourceID`: an opaque, comparable identifier.  The embedded code
only compares identifiers and renders them with `String()`, so the
identifier is embedded as its string rendering. -/
abbrev ResourceID := String

/-- A Go `error`, carried as its message text (`err.Error()`). -/
abbrev Err := String

/-- `update.WorkloadResult`: the verdict recorded per workload in the result
ledger.  The embedded code reads only the `Status` and `Error` fields. -/
structure WorkloadResult where
  status : String
  error : String
deriving DecidableEq, Repr

/-- Modelled from the spec: the `update.ReleaseStatusSuccess` status constant
("approved"); its implementation lives outside `src/`.  Only its identity
matters: it is distinct from `ReleaseStatusSkipped` and from the empty
status. -/
def ReleaseStatusSuccess : String := "success"

/-- Modelled from the spec: the `update.ReleaseStatusSkipped` status constant
("skipped"); its implementation lives outside `src/`. -/
def ReleaseStatusSkipped : String := "skipped"

/-- Modelled from the spec: the `update.NotInCluster` reason constant
("not-in-cluster"); its implementation lives outside `src/`. -/
def NotInCluster : String := "not found running in cluster"

/-- `cluster.Workload`: a running workload as reported by the cluster
collaborator — its identifier plus opaque live state (embedded as a list of
container name / image pairs; the embedded code never inspects it). -/
structure Workload where
  id : ResourceID
  containers : List (String × String)
deriving DecidableEq, Repr

/-- `resource.Resource` together with the "is a deployable workload"
capability (`res.(resource.Workload)` in Go): its identifier, its declared
relative source path, and whether the type assertion succeeds. -/
structure Resource where
  resourceID : ResourceID
  source : String
  isWorkload : Bool
deriving DecidableEq, Repr

/-- `update.ContainerUpdate`: one per-container image-update instruction
(container name and target image reference, the latter opaque here). -/
structure ContainerUpdate where
  container : String
  target : String
deriving DecidableEq, Repr

/-- Modelled from the spec (and from the fields `release/context.go` uses):
`update.WorkloadUpdate`, the workload-update candidate.  `workload` is
`none` until the cluster-query stage populates it. -/
structure WorkloadUpdate where
  resourceID : ResourceID
  workload : Option Workload
  resource : Resource
  manifestPath : String
  updates : List ContainerUpdate
deriving DecidableEq, Repr

/-- `update.WorkloadFilter`: a pure function from a candidate to a verdict. -/
abbrev WorkloadFilter := WorkloadUpdate → WorkloadResult

/-- `update.Result`: the result ledger, a Go map from resource identifier to
verdict, embedded as an association list. -/
abbrev Result := List (ResourceID × WorkloadResult)

/-- Go map read `m[k]` (with presence flag): first binding for the key. -/
def lookupKey {β : Type} : List (ResourceID × β) → ResourceID → Option β
  | [], _ => none
  | p :: rest, k => if p.1 = k then some p.2 else lookupKey rest k

/-- Go map write `m[k] = v`: bind the key, dropping any previous binding. -/
def setKey {β : Type} (l : List (ResourceID × β)) (k : ResourceID) (v : β) :
    List (ResourceID × β) :=
  (k, v) :: l.filter (fun p => p.1 ≠ k)

/-- Modelled from the spec: the filter pipeline `update.WorkloadUpdate.Filter`
(outside `src/`).  Filters run in the caller-supplied order; the pipeline
short-circuits at the first rejecting verdict (one carrying a reason in its
`Error` field) and returns it; otherwise it returns the zero verdict. -/
def filterWith (filters : List WorkloadFilter) (s : WorkloadUpdate) :
    WorkloadResult :=
  match filters with
  | [] => { status := "", error := "" }
  | f :: rest =>
    let fr := f s
    if fr.error ≠ "" then fr else filterWith rest s

/-- The `ReleaseContext` with its collaborators, each embedded at its
interface boundary: the checkout root directory (`repo.Dir()`), the outcome
of `manifests.LoadManifests(repo.Dir(), repo.ManifestDirs())` (the loaded
resources in Go map iteration order), `SomeWorkloads` of the cluster, and
`manifests.UpdateImage` (bytes, resource id, container, target → bytes). -/
structure ReleaseContext where
  repoDir : String
  loadManifests : Except Err (List Resource)
  someWorkloads : List ResourceID → Except Err (List Workload)
  updateImage : String → ResourceID → String → String → Except Err String

/-- `ReleaseContext.LoadManifests`: delegates to the manifests collaborator. -/
def LoadManifests (rc : ReleaseContext) : Except Err (List Resource) :=
  rc.loadManifests

/-- `filepath.Join` for the two-argument uses in `release/context.go`
(path cleaning is not modelled; no claim depends on it). -/
def filepathJoin (dir name : String) : String :=
  if dir = "" then name else if name = "" then dir else dir ++ "/" ++ name

/-- The candidate `WorkloadsForUpdate` builds for one deployable resource:
identifier and resource from the resource itself, manifest path the checkout
root joined with the relative source of the resource, no running workload and no
instructions yet. -/
def mkWorkloadUpdate (rc : ReleaseContext) (res : Resource) : WorkloadUpdate :=
  { resourceID := res.resourceID
    workload := none
    resource := res
    manifestPath := filepathJoin rc.repoDir res.source
    updates := [] }

/-- The body of the indexing loop of `WorkloadsForUpdate` (lines 139–146):
keep the resource, keyed by its identifier, exactly when the
deployable-workload type assertion succeeds. -/
def indexStep (rc : ReleaseContext)
    (defined : List (ResourceID × WorkloadUpdate)) (res : Resource) :
    List (ResourceID × WorkloadUpdate) :=
  if res.isWorkload then
    setKey defined res.resourceID (mkWorkloadUpdate rc res)
  else defined

/-- `ReleaseContext.WorkloadsForUpdate`: loads the manifests and keeps, keyed
by identifier, one workload-update candidate per resource that has the
deployable-workload capability. -/
def WorkloadsForUpdate (rc : ReleaseContext) :
    Except Err (List (ResourceID × WorkloadUpdate)) :=
  match LoadManifests rc with
  | .error e => .error e
  | .ok resources => .ok (resources.foldl (indexStep rc) [])

/-- The body of the pre-filter loop in `SelectWorkloads` (lines 81–95): run
the pre-filters; on approval (empty `Error`) record the provisional
skipped/not-in-cluster verdict and append the identifier to the
cluster-query list, otherwise record the rejection verdict. -/
def preFilterStep (prefilters : List WorkloadFilter)
    (acc : Result × List ResourceID) (entry : ResourceID × WorkloadUpdate) :
    Result × List ResourceID :=
  let s := entry.2
  let res := filterWith prefilters s
  if res.error = "" then
    (setKey acc.1 s.resourceID
        { status := ReleaseStatusSkipped, error := NotInCluster },
      acc.2 ++ [s.resourceID])
  else
    (setKey acc.1 s.resourceID res, acc.2)

/-- The pre-filter loop of `SelectWorkloads` over all defined workloads. -/
def preFilterStage (prefilters : List WorkloadFilter) (results : Result)
    (allDefined : List (ResourceID × WorkloadUpdate)) :
    Result × List ResourceID :=
  allDefined.foldl (preFilterStep prefilters) (results, [])

/-- The verdict the pre-filter loop of `SelectWorkloads` records for a
workload: the provisional skipped/not-in-cluster default on approval, the
rejection verdict of the pipeline otherwise. -/
def preVerdict (pre : List WorkloadFilter) (s : WorkloadUpdate) :
    WorkloadResult :=
  if (filterWith pre s).error = "" then
    { status := ReleaseStatusSkipped, error := NotInCluster }
  else filterWith pre s

/-- The merge loop of `SelectWorkloads` (lines 103–115): for each running
workload, look up the defined candidate by identifier; if it is not defined,
fail with the contract-violation error; otherwise attach the running
workload to the (pointer-shared) candidate and remember the identifier for
post-filtering.  Returns the updated candidate map and, in order, the
identifiers collected for post-filtering. -/
def mergeRunning (allDefined : List (ResourceID × WorkloadUpdate)) :
    List Workload →
      Except Err (List (ResourceID × WorkloadUpdate) × List ResourceID)
  | [] => .ok (allDefined, [])
  | s :: rest =>
    match lookupKey allDefined s.id with
    | none =>
      .error ("controller " ++ s.id ++
        " was requested and is running, but is not defined")
    | some u =>
      match mergeRunning (setKey allDefined s.id { u with workload := some s })
          rest with
      | .error e => .error e
      | .ok (m, ids) => .ok (m, s.id :: ids)

/-- The body of the post-filter loop of `SelectWorkloads` (lines 117–126):
record the post-filter verdict in the ledger, and append the candidate to
the filtered updates exactly when the status of the verdict is success or the
empty default. -/
def postFilterStep (postfilters : List WorkloadFilter)
    (acc : Result × List WorkloadUpdate) (s : WorkloadUpdate) :
    Result × List WorkloadUpdate :=
  let fr := filterWith postfilters s
  (setKey acc.1 s.resourceID fr,
    if fr.status = ReleaseStatusSuccess ∨ fr.status = "" then acc.2 ++ [s]
    else acc.2)

/-- The post-filter loop of `SelectWorkloads` over the merged candidates. -/
def postFilterStage (postfilters : List WorkloadFilter) (results : Result)
    (forPostFiltering : List WorkloadUpdate) :
    Result × List WorkloadUpdate :=
  forPostFiltering.foldl (postFilterStep postfilters) (results, [])

/-- `ReleaseContext.SelectWorkloads`: the reconciliation algorithm.  The
caller-supplied ledger is mutated in place in Go; the embedding returns the
ledger alongside the outcome, so the ledger component is the state of the ledger
when the call returns, also on the error paths.  The merged candidates for
post-filtering are read back from the merged map (`mergeRunning` updates the
map entry that the Go code mutates through a shared pointer). -/
def SelectWorkloads (rc : ReleaseContext) (results : Result)
    (prefilters postfilters : List WorkloadFilter) :
    Result × Except Err (List WorkloadUpdate) :=
  match WorkloadsForUpdate rc with
  | .error e => (results, .error e)
  | .ok allDefined =>
    let pr := preFilterStage prefilters results allDefined
    match rc.someWorkloads pr.2 with
    | .error e => (pr.1, .error e)
    | .ok definedAndRunning =>
      match mergeRunning allDefined definedAndRunning with
      | .error e => (pr.1, .error e)
      | .ok mi =>
        let po := postFilterStage postfilters pr.1
          (mi.2.filterMap (lookupKey mi.1))
        (po.1, .ok po.2)

/-- The file system seen by `WriteUpdates`: file contents by path, plus the
paths on which a write fails (modelling `ioutil.WriteFile` errors). -/
structure FS where
  files : List (String × String)
  unwritable : List String
deriving DecidableEq, Repr

/-- `ioutil.ReadFile`: the contents at the path, or the OS error naming the
path. -/
def readFile (fs : FS) (path : String) : Except Err String :=
  match lookupKey fs.files path with
  | some contents => .ok contents
  | none => .error ("open " ++ path ++ ": no such file or directory")

/-- `ioutil.WriteFile`: replace the contents at the path, or fail with the
OS error naming the path. -/
def writeFile (fs : FS) (path contents : String) : Except Err FS :=
  if path ∈ fs.unwritable then
    .error ("open " ++ path ++ ": permission denied")
  else .ok { fs with files := setKey fs.files path contents }

/-- The inner loop of `WriteUpdates` (lines 49–54): apply each container
instruction in sequence to the in-memory byte buffer via
`manifests.UpdateImage`, stopping at the first failure. -/
def applyContainerUpdates (rc : ReleaseContext) (resourceID : ResourceID)
    (bytes : String) : List ContainerUpdate → Except Err String
  | [] => .ok bytes
  | c :: rest =>
    match rc.updateImage bytes resourceID c.container c.target with
    | .error e => .error e
    | .ok b => applyContainerUpdates rc resourceID b rest

/-- `ReleaseContext.WriteUpdates` (lines 43–63): for each update in list
order, read the current bytes of its manifest file, apply its container
instructions in sequence, and write the result back to the same path;
any failure stops the batch and is reported (wrapped with the resource and
source file for update and write failures, as `errors.Wrapf` renders them). -/
def WriteUpdates (rc : ReleaseContext) (fs : FS) :
    List WorkloadUpdate → FS × Option Err
  | [] => (fs, none)
  | u :: rest =>
    match readFile fs u.manifestPath with
    | .error e => (fs, some e)
    | .ok manifestBytes =>
      match applyContainerUpdates rc u.resourceID manifestBytes u.updates with
      | .error e =>
        (fs, some ("updating resource " ++ u.resourceID ++ " in " ++
          u.resource.source ++ ": " ++ e))
      | .ok bytes =>
        match writeFile fs u.manifestPath bytes with
        | .error e =>
          (fs, some ("writing updated file " ++ u.resource.source ++ ": " ++ e))
        | .ok fs1 => WriteUpdates rc fs1 rest


/- ### Concrete instances (small scenarios evaluated in closed theorems) -/

/-- A deployable workload resource with identifier `a`. -/
def resA : Resource := { resourceID := "a", source := "a.yaml", isWorkload := true }

/-- A deployable workload resource with identifier `b`. -/
def resB : Resource := { resourceID := "b", source := "b.yaml", isWorkload := true }

/-- A resource without the workload capability (say, a config map). -/
def resC : Resource := { resourceID := "c", source := "c.yaml", isWorkload := false }

/-- A second workload declared in the manifest file of `a`. -/
def resB2 : Resource := { resourceID := "b", source := "a.yaml", isWorkload := true }

/-- A running workload with identifier `a`. -/
def wA : Workload := { id := "a", containers := [("app", "img:1")] }

/-- A running workload with identifier `b`. -/
def wB : Workload := { id := "b", containers := [] }

/-- A running workload with identifier `z`, declared nowhere. -/
def wZ : Workload := { id := "z", containers := [] }

/-- A filter that rejects workload `b` with a reason and approves the rest. -/
def rejectB : WorkloadFilter := fun s =>
  if s.resourceID = "b" then { status := "failed", error := "rejected" }
  else { status := "", error := "" }

/-- A filter returning a non-success status with an empty error. -/
def oddFilter : WorkloadFilter := fun _ => { status := "failed", error := "" }

/-- A filter approving everything with an explicit success status. -/
def approveAll : WorkloadFilter := fun _ =>
  { status := ReleaseStatusSuccess, error := "" }

/-- The candidate `WorkloadsForUpdate` builds for `resA` under root `repo`. -/
def uA : WorkloadUpdate :=
  { resourceID := "a", workload := none, resource := resA
    manifestPath := "repo/a.yaml", updates := [] }

/-- The candidate `WorkloadsForUpdate` builds for `resB` under root `repo`. -/
def uB : WorkloadUpdate :=
  { resourceID := "b", workload := none, resource := resB
    manifestPath := "repo/b.yaml", updates := [] }

/-- A release context whose cluster honours its contract and reports only
workload `a` running. -/
def rcMain : ReleaseContext :=
  { repoDir := "repo"
    loadManifests := .ok [resA, resB, resC]
    someWorkloads := fun _ => .ok [wA]
    updateImage := fun b _ c t => .ok (b ++ "|" ++ c ++ "=" ++ t) }

/-- A release context whose cluster reports workload `b` running although it
is never asked about `b` (the contract-violation scenario). -/
def rcRogue : ReleaseContext :=
  { repoDir := "repo"
    loadManifests := .ok [resA, resB]
    someWorkloads := fun _ => .ok [wB]
    updateImage := fun b _ _ _ => .ok b }

/-- A release context whose cluster reports a workload that is not declared
at all. -/
def rcGhost : ReleaseContext :=
  { repoDir := "repo"
    loadManifests := .ok [resA]
    someWorkloads := fun _ => .ok [wZ]
    updateImage := fun b _ _ _ => .ok b }

/-- A release context whose cluster query always fails. -/
def rcDown : ReleaseContext :=
  { repoDir := "repo"
    loadManifests := .ok [resA]
    someWorkloads := fun _ => .error "cluster unavailable"
    updateImage := fun b _ _ _ => .ok b }

/-- A release context whose manifest load fails. -/
def rcBadRepo : ReleaseContext :=
  { repoDir := "repo"
    loadManifests := .error "load failed"
    someWorkloads := fun _ => .ok []
    updateImage := fun b _ _ _ => .ok b }

/-- A release context whose image-update collaborator always fails. -/
def rcBadImage : ReleaseContext :=
  { repoDir := "repo"
    loadManifests := .ok [resA]
    someWorkloads := fun _ => .ok []
    updateImage := fun _ _ _ _ => .error "container not found" }

/-- An image instruction for container `app`. -/
def cu1 : ContainerUpdate := { container := "app", target := "img:2" }

/-- An image instruction for container `sidecar`. -/
def cu2 : ContainerUpdate := { container := "sidecar", target := "side:2" }

/-- An update batch entry rewriting container `app` in `repo/a.yaml`. -/
def uW1 : WorkloadUpdate :=
  { resourceID := "a", workload := none, resource := resA
    manifestPath := "repo/a.yaml", updates := [cu1] }

/-- A second entry for the same file `repo/a.yaml` (workload `b` is declared
in the manifest of `a`), rewriting container `sidecar`. -/
def uW2 : WorkloadUpdate :=
  { resourceID := "b", workload := none, resource := resB2
    manifestPath := "repo/a.yaml", updates := [cu2] }

/-- An entry whose manifest file does not exist. -/
def uW3 : WorkloadUpdate :=
  { resourceID := "b", workload := none, resource := resB
    manifestPath := "repo/missing.yaml", updates := [cu2] }

/-- A file system holding only `repo/a.yaml`, everything writable. -/
def fs0 : FS := { files := [("repo/a.yaml", "manifest")], unwritable := [] }

/-- A file system where `repo/a.yaml` exists but cannot be written. -/
def fsRO : FS :=
  { files := [("repo/a.yaml", "manifest")], unwritable := ["repo/a.yaml"] }

/- ### Association-map lemmas -/

theorem lookupKey_setKey_self {β : Type} (l : List (ResourceID × β))
    (k : ResourceID) (v : β) : lookupKey (setKey l k v) k = some v := by
  simp [setKey, lookupKey]

theorem lookupKey_filter_ne {β : Type} (l : List (ResourceID × β))
    (k k' : ResourceID) (h : k' ≠ k) :
    lookupKey (l.filter fun p => p.1 ≠ k) k' = lookupKey l k' := by
  induction l with
  | nil => rfl
  | cons p rest ih =>
    by_cases hp : p.1 = k
    · have hpk : ¬ p.1 = k' := fun hh => h (hh ▸ hp)
      rw [List.filter_cons_of_neg (by simp [hp])]
      simp only [lookupKey, if_neg hpk]
      exact ih
    · rw [List.filter_cons_of_pos (by simp [hp])]
      by_cases hk' : p.1 = k'
      · simp only [lookupKey, if_pos hk']
      · simp only [lookupKey, if_neg hk']
        exact ih

theorem lookupKey_setKey_ne {β : Type} (l : List (ResourceID × β))
    (k k' : ResourceID) (v : β) (h : k' ≠ k) :
    lookupKey (setKey l k v) k' = lookupKey l k' := by
  have hk : ¬ k = k' := fun hh => h hh.symm
  show lookupKey ((k, v) :: l.filter fun p => p.1 ≠ k) k' = lookupKey l k'
  simp only [lookupKey, if_neg hk]
  exact lookupKey_filter_ne l k k' h

theorem lookupKey_setKey_none {β : Type} (l : List (ResourceID × β))
    (k x : ResourceID) (v : β) :
    lookupKey (setKey l k v) x = none ↔ x ≠ k ∧ lookupKey l x = none := by
  by_cases hx : x = k
  · subst hx; simp [lookupKey_setKey_self]
  · simp [lookupKey_setKey_ne l k x v hx, hx]

theorem mem_setKey {β : Type} (l : List (ResourceID × β)) (k : ResourceID)
    (v : β) (p : ResourceID × β) (h : p ∈ setKey l k v) :
    p = (k, v) ∨ p ∈ l := by
  rcases List.mem_cons.mp h with h1 | h1
  · exact Or.inl h1
  · exact Or.inr (List.mem_of_mem_filter h1)

theorem lookupKey_mem {β : Type} (l : List (ResourceID × β))
    (k : ResourceID) (v : β) (h : lookupKey l k = some v) : (k, v) ∈ l := by
  induction l with
  | nil => simp [lookupKey] at h
  | cons p rest ih =>
    by_cases hp : p.1 = k
    · simp only [lookupKey, if_pos hp, Option.some.injEq] at h
      cases p
      simp_all
    · simp only [lookupKey, if_neg hp] at h
      exact List.mem_cons_of_mem _ (ih h)

theorem lookupKey_eq_none_iff {β : Type} (l : List (ResourceID × β))
    (k : ResourceID) : lookupKey l k = none ↔ k ∉ l.map Prod.fst := by
  induction l with
  | nil => simp [lookupKey]
  | cons p rest ih =>
    simp only [lookupKey, List.map_cons, List.mem_cons]
    by_cases hp : p.1 = k
    · simp [hp]
    · have hp' : ¬ k = p.1 := fun hh => hp hh.symm
      simp [hp, hp', ih]

theorem nodup_keys_setKey {β : Type} (l : List (ResourceID × β))
    (k : ResourceID) (v : β) (h : (l.map Prod.fst).Nodup) :
    ((setKey l k v).map Prod.fst).Nodup := by
  have hsub : ((l.filter fun p => p.1 ≠ k).map Prod.fst).Sublist
      (l.map Prod.fst) := List.Sublist.map _ (List.filter_sublist l)
  refine List.nodup_cons.mpr ⟨?_, List.Nodup.sublist hsub h⟩
  intro hk
  rcases List.mem_map.mp hk with ⟨p, hp, hfst⟩
  have hne := List.of_mem_filter hp
  simp at hne
  exact hne hfst

/- ### Pre-filter stage lemmas -/

theorem preFilter_fold_snd (pre : List WorkloadFilter)
    (l : List (ResourceID × WorkloadUpdate)) (acc : Result × List ResourceID) :
    (l.foldl (preFilterStep pre) acc).2 =
      acc.2 ++ (l.filter fun e => (filterWith pre e.2).error = "").map
        (fun e => e.2.resourceID) := by
  induction l generalizing acc with
  | nil => simp
  | cons e rest ih =>
    rw [List.foldl_cons, ih]
    by_cases h : (filterWith pre e.2).error = ""
    · rw [List.filter_cons_of_pos (by simp [h])]
      simp [preFilterStep, h]
    · rw [List.filter_cons_of_neg (by simp [h])]
      simp [preFilterStep, h]

theorem preFilter_fold_frame (pre : List WorkloadFilter)
    (l : List (ResourceID × WorkloadUpdate)) (acc : Result × List ResourceID)
    (x : ResourceID) (h : ∀ e ∈ l, e.2.resourceID ≠ x) :
    lookupKey (l.foldl (preFilterStep pre) acc).1 x = lookupKey acc.1 x := by
  induction l generalizing acc with
  | nil => rfl
  | cons e rest ih =>
    rw [List.foldl_cons, ih _ (fun a ha => h a (List.mem_cons_of_mem _ ha))]
    have hne : x ≠ e.2.resourceID :=
      fun hh => h e (List.mem_cons_self _ _) hh.symm
    by_cases hf : (filterWith pre e.2).error = ""
    · simp [preFilterStep, hf, lookupKey_setKey_ne _ _ _ _ hne]
    · simp [preFilterStep, hf, lookupKey_setKey_ne _ _ _ _ hne]

theorem preFilter_fold_entry (pre : List WorkloadFilter)
    (l : List (ResourceID × WorkloadUpdate)) (acc : Result × List ResourceID)
    (e : ResourceID × WorkloadUpdate) (he : e ∈ l)
    (hnd : (l.map fun p => p.2.resourceID).Nodup) :
    lookupKey (l.foldl (preFilterStep pre) acc).1 e.2.resourceID =
      some (preVerdict pre e.2) := by
  induction l generalizing acc with
  | nil => cases he
  | cons a rest ih =>
    rw [List.map_cons, List.nodup_cons] at hnd
    rw [List.foldl_cons]
    rcases List.mem_cons.mp he with h1 | h1
    · subst h1
      have hrest : ∀ x ∈ rest, x.2.resourceID ≠ e.2.resourceID := by
        intro x hx hh
        exact hnd.1 (hh ▸ List.mem_map_of_mem _ hx)
      rw [preFilter_fold_frame pre rest _ _ hrest]
      by_cases hf : (filterWith pre e.2).error = ""
      · simp [preFilterStep, hf, preVerdict, lookupKey_setKey_self]
      · simp [preFilterStep, hf, preVerdict, lookupKey_setKey_self]
    · exact ih _ h1 hnd.2

/- ### Post-filter stage lemmas -/

theorem postFilter_fold_snd (post : List WorkloadFilter)
    (l : List WorkloadUpdate) (acc : Result × List WorkloadUpdate) :
    (l.foldl (postFilterStep post) acc).2 =
      acc.2 ++ l.filter (fun s =>
        (filterWith post s).status = ReleaseStatusSuccess ∨
          (filterWith post s).status = "") := by
  induction l generalizing acc with
  | nil => simp
  | cons s rest ih =>
    rw [List.foldl_cons, ih]
    by_cases h : (filterWith post s).status = ReleaseStatusSuccess ∨
        (filterWith post s).status = ""
    · rw [List.filter_cons_of_pos (by simp [h])]
      simp [postFilterStep, h]
    · rw [List.filter_cons_of_neg (by simp [h])]
      simp [postFilterStep, h]

theorem postFilter_fold_frame (post : List WorkloadFilter)
    (l : List WorkloadUpdate) (acc : Result × List WorkloadUpdate)
    (x : ResourceID) (h : ∀ s ∈ l, s.resourceID ≠ x) :
    lookupKey (l.foldl (postFilterStep post) acc).1 x = lookupKey acc.1 x := by
  induction l generalizing acc with
  | nil => rfl
  | cons s rest ih =>
    rw [List.foldl_cons, ih _ (fun a ha => h a (List.mem_cons_of_mem _ ha))]
    have hne : x ≠ s.resourceID := fun hh => h s (List.mem_cons_self _ _) hh.symm
    by_cases hf : (filterWith post s).status = ReleaseStatusSuccess ∨
        (filterWith post s).status = ""
    · simp [postFilterStep, hf, lookupKey_setKey_ne _ _ _ _ hne]
    · simp [postFilterStep, hf, lookupKey_setKey_ne _ _ _ _ hne]

theorem postFilter_fold_entry (post : List WorkloadFilter)
    (l : List WorkloadUpdate) (acc : Result × List WorkloadUpdate)
    (s : WorkloadUpdate) (hs : s ∈ l)
    (hnd : (l.map fun u => u.resourceID).Nodup) :
    lookupKey (l.foldl (postFilterStep post) acc).1 s.resourceID =
      some (filterWith post s) := by
  induction l generalizing acc with
  | nil => cases hs
  | cons a rest ih =>
    rw [List.map_cons, List.nodup_cons] at hnd
    rw [List.foldl_cons]
    rcases List.mem_cons.mp hs with h1 | h1
    · subst h1
      have hrest : ∀ x ∈ rest, x.resourceID ≠ s.resourceID := by
        intro x hx hh
        exact hnd.1 (hh ▸ List.mem_map_of_mem _ hx)
      rw [postFilter_fold_frame post rest _ _ hrest]
      simp [postFilterStep, lookupKey_setKey_self]
    · exact ih _ h1 hnd.2

/- ### Manifest-index lemmas -/

theorem index_fold_good (rc : ReleaseContext) (resources : List Resource)
    (acc : List (ResourceID × WorkloadUpdate))
    (hacc : ∀ p ∈ acc, p.1 = p.2.resourceID ∧ p.2.workload = none) :
    ∀ p ∈ resources.foldl (indexStep rc) acc,
      p.1 = p.2.resourceID ∧ p.2.workload = none := by
  induction resources generalizing acc with
  | nil => exact hacc
  | cons r rest ih =>
    rw [List.foldl_cons]
    refine ih _ ?_
    intro p hp
    by_cases hw : r.isWorkload
    · simp only [indexStep, hw, if_true] at hp
      rcases mem_setKey _ _ _ _ hp with h1 | h1
      · subst h1
        exact ⟨rfl, rfl⟩
      · exact hacc p h1
    · simp only [indexStep, hw] at hp
      simp only [Bool.false_eq_true, if_false] at hp
      exact hacc p hp

theorem index_fold_nodup (rc : ReleaseContext) (resources : List Resource)
    (acc : List (ResourceID × WorkloadUpdate))
    (hacc : (acc.map Prod.fst).Nodup) :
    ((resources.foldl (indexStep rc) acc).map Prod.fst).Nodup := by
  induction resources generalizing acc with
  | nil => exact hacc
  | cons r rest ih =>
    rw [List.foldl_cons]
    refine ih _ ?_
    by_cases hw : r.isWorkload
    · simp only [indexStep, hw, if_true]
      exact nodup_keys_setKey _ _ _ hacc
    · simpa only [indexStep, hw, Bool.false_eq_true, if_false] using hacc

theorem wfu_ok_inv (rc : ReleaseContext)
    (m : List (ResourceID × WorkloadUpdate))
    (h : WorkloadsForUpdate rc = .ok m) :
    ∃ resources, LoadManifests rc = .ok resources ∧
      m = resources.foldl (indexStep rc) [] := by
  unfold WorkloadsForUpdate at h
  cases hl : LoadManifests rc with
  | error e =>
    rw [hl] at h
    simp at h
  | ok resources =>
    rw [hl] at h
    simp only [Except.ok.injEq] at h
    exact ⟨resources, rfl, h.symm⟩

theorem wfu_good (rc : ReleaseContext) (m : List (ResourceID × WorkloadUpdate))
    (h : WorkloadsForUpdate rc = .ok m) :
    ∀ p ∈ m, p.1 = p.2.resourceID ∧ p.2.workload = none := by
  rcases wfu_ok_inv rc m h with ⟨resources, _, rfl⟩
  exact index_fold_good rc resources [] (by simp)

theorem wfu_nodup_keys (rc : ReleaseContext)
    (m : List (ResourceID × WorkloadUpdate))
    (h : WorkloadsForUpdate rc = .ok m) : (m.map Prod.fst).Nodup := by
  rcases wfu_ok_inv rc m h with ⟨resources, _, rfl⟩
  exact index_fold_nodup rc resources [] (by simp)

theorem wfu_nodup_ids (rc : ReleaseContext)
    (m : List (ResourceID × WorkloadUpdate))
    (h : WorkloadsForUpdate rc = .ok m) :
    (m.map fun p => p.2.resourceID).Nodup := by
  have hg := wfu_good rc m h
  have heq : (m.map fun p => p.2.resourceID) = m.map Prod.fst := by
    apply List.map_congr_left
    intro p hp
    exact (hg p hp).1.symm
  rw [heq]
  exact wfu_nodup_keys rc m h

theorem wfu_lookup_good (rc : ReleaseContext)
    (m : List (ResourceID × WorkloadUpdate))
    (h : WorkloadsForUpdate rc = .ok m) (k : ResourceID) (u : WorkloadUpdate)
    (hk : lookupKey m k = some u) : u.resourceID = k ∧ u.workload = none := by
  have hm := lookupKey_mem m k u hk
  have hp := wfu_good rc m h (k, u) hm
  exact ⟨hp.1.symm, hp.2⟩

/- ### Merge-stage lemmas -/


theorem mergeRunning_cons_none (ad : List (ResourceID × WorkloadUpdate))
    (s : Workload) (rest : List Workload) (hl : lookupKey ad s.id = none) :
    mergeRunning ad (s :: rest) =
      .error ("controller " ++ s.id ++
        " was requested and is running, but is not defined") := by
  unfold mergeRunning
  rw [hl]

theorem mergeRunning_cons_some (ad : List (ResourceID × WorkloadUpdate))
    (s : Workload) (rest : List Workload) (u : WorkloadUpdate)
    (hl : lookupKey ad s.id = some u) :
    mergeRunning ad (s :: rest) =
      match mergeRunning (setKey ad s.id { u with workload := some s })
          rest with
      | .error e => .error e
      | .ok (m, ids) => .ok (m, s.id :: ids) := by
  conv_lhs => unfold mergeRunning
  rw [hl]

theorem mergeRunning_ids (ad : List (ResourceID × WorkloadUpdate))
    (running : List Workload) (m : List (ResourceID × WorkloadUpdate))
    (ids : List ResourceID) (h : mergeRunning ad running = .ok (m, ids)) :
    ids = running.map Workload.id := by
  induction running generalizing ad m ids with
  | nil =>
    simp only [mergeRunning, Except.ok.injEq, Prod.mk.injEq] at h
    simp [h.2.symm]
  | cons s rest ih =>
    cases hl : lookupKey ad s.id with
    | none => rw [mergeRunning_cons_none ad s rest hl] at h; simp at h
    | some u =>
      rw [mergeRunning_cons_some ad s rest u hl] at h
      cases hm : mergeRunning (setKey ad s.id { u with workload := some s })
          rest with
      | error e => simp [hm] at h
      | ok pr =>
        obtain ⟨m', ids'⟩ := pr
        simp only [hm, Except.ok.injEq, Prod.mk.injEq] at h
        rw [List.map_cons, ← h.2, ih _ _ _ hm]

theorem mergeRunning_none_iff (ad : List (ResourceID × WorkloadUpdate))
    (running : List Workload) (m : List (ResourceID × WorkloadUpdate))
    (ids : List ResourceID) (h : mergeRunning ad running = .ok (m, ids))
    (x : ResourceID) : lookupKey m x = none ↔ lookupKey ad x = none := by
  induction running generalizing ad m ids with
  | nil =>
    simp only [mergeRunning, Except.ok.injEq, Prod.mk.injEq] at h
    rw [h.1]
  | cons s rest ih =>
    cases hl : lookupKey ad s.id with
    | none => rw [mergeRunning_cons_none ad s rest hl] at h; simp at h
    | some u =>
      rw [mergeRunning_cons_some ad s rest u hl] at h
      cases hm : mergeRunning (setKey ad s.id { u with workload := some s })
          rest with
      | error e => simp [hm] at h
      | ok pr =>
        obtain ⟨m', ids'⟩ := pr
        simp only [hm, Except.ok.injEq, Prod.mk.injEq] at h
        rw [← h.1]
        rw [ih _ _ _ hm, lookupKey_setKey_none]
        constructor
        · exact fun hx => hx.2
        · intro hx
          refine ⟨?_, hx⟩
          intro hxe
          rw [hxe] at hx
          rw [hl] at hx
          cases hx

theorem mergeRunning_frame (ad : List (ResourceID × WorkloadUpdate))
    (running : List Workload) (m : List (ResourceID × WorkloadUpdate))
    (ids : List ResourceID) (h : mergeRunning ad running = .ok (m, ids))
    (x : ResourceID) (hx : x ∉ running.map Workload.id) :
    lookupKey m x = lookupKey ad x := by
  induction running generalizing ad m ids with
  | nil =>
    simp only [mergeRunning, Except.ok.injEq, Prod.mk.injEq] at h
    rw [h.1]
  | cons s rest ih =>
    rw [List.map_cons, List.mem_cons] at hx
    push_neg at hx
    cases hl : lookupKey ad s.id with
    | none => rw [mergeRunning_cons_none ad s rest hl] at h; simp at h
    | some u =>
      rw [mergeRunning_cons_some ad s rest u hl] at h
      cases hm : mergeRunning (setKey ad s.id { u with workload := some s })
          rest with
      | error e => simp [hm] at h
      | ok pr =>
        obtain ⟨m', ids'⟩ := pr
        simp only [hm, Except.ok.injEq, Prod.mk.injEq] at h
        rw [← h.1, ih _ _ _ hm hx.2, lookupKey_setKey_ne _ _ _ _ hx.1]

theorem mergeRunning_good (ad : List (ResourceID × WorkloadUpdate))
    (running : List Workload) (m : List (ResourceID × WorkloadUpdate))
    (ids : List ResourceID) (h : mergeRunning ad running = .ok (m, ids))
    (hgood : ∀ k u, lookupKey ad k = some u → u.resourceID = k) :
    ∀ k u, lookupKey m k = some u → u.resourceID = k := by
  induction running generalizing ad m ids with
  | nil =>
    simp only [mergeRunning, Except.ok.injEq, Prod.mk.injEq] at h
    rw [← h.1]
    exact hgood
  | cons s rest ih =>
    cases hl : lookupKey ad s.id with
    | none => rw [mergeRunning_cons_none ad s rest hl] at h; simp at h
    | some u =>
      rw [mergeRunning_cons_some ad s rest u hl] at h
      cases hm : mergeRunning (setKey ad s.id { u with workload := some s })
          rest with
      | error e => simp [hm] at h
      | ok pr =>
        obtain ⟨m', ids'⟩ := pr
        simp only [hm, Except.ok.injEq, Prod.mk.injEq] at h
        rw [← h.1]
        refine ih _ _ _ hm ?_
        intro k v hk
        by_cases hks : k = s.id
        · subst hks
          rw [lookupKey_setKey_self] at hk
          cases hk
          exact hgood s.id u hl
        · rw [lookupKey_setKey_ne _ _ _ _ hks] at hk
          exact hgood k v hk

theorem mergeRunning_total (ad : List (ResourceID × WorkloadUpdate))
    (running : List Workload) (m : List (ResourceID × WorkloadUpdate))
    (ids : List ResourceID) (h : mergeRunning ad running = .ok (m, ids)) :
    ∀ x ∈ ids, lookupKey m x ≠ none := by
  induction running generalizing ad m ids with
  | nil =>
    simp only [mergeRunning, Except.ok.injEq, Prod.mk.injEq] at h
    rw [← h.2]
    intro x hx
    cases hx
  | cons s rest ih =>
    cases hl : lookupKey ad s.id with
    | none => rw [mergeRunning_cons_none ad s rest hl] at h; simp at h
    | some u =>
      rw [mergeRunning_cons_some ad s rest u hl] at h
      cases hm : mergeRunning (setKey ad s.id { u with workload := some s })
          rest with
      | error e => simp [hm] at h
      | ok pr =>
        obtain ⟨m', ids'⟩ := pr
        simp only [hm, Except.ok.injEq, Prod.mk.injEq] at h
        rw [← h.1, ← h.2]
        intro x hx
        rcases List.mem_cons.mp hx with h1 | h1
        · subst h1
          intro hnone
          rw [mergeRunning_none_iff _ _ _ _ hm s.id, lookupKey_setKey_none]
            at hnone
          exact hnone.1 rfl
        · exact ih _ _ _ hm x h1

theorem mergeRunning_error_of_missing (ad : List (ResourceID × WorkloadUpdate))
    (running : List Workload)
    (hviol : ∃ s ∈ running, lookupKey ad s.id = none) :
    ∃ t ∈ running, lookupKey ad t.id = none ∧
      mergeRunning ad running =
        .error ("controller " ++ t.id ++
          " was requested and is running, but is not defined") := by
  induction running generalizing ad with
  | nil => rcases hviol with ⟨s, hs, _⟩; cases hs
  | cons s rest ih =>
    cases hl : lookupKey ad s.id with
    | none =>
      exact ⟨s, List.mem_cons_self _ _, hl, mergeRunning_cons_none ad s rest hl⟩
    | some u =>
      have hviol' : ∃ t ∈ rest,
          lookupKey (setKey ad s.id { u with workload := some s }) t.id =
            none := by
        rcases hviol with ⟨t, ht, htn⟩
        rcases List.mem_cons.mp ht with h1 | h1
        · subst h1
          rw [htn] at hl
          cases hl
        · refine ⟨t, h1, ?_⟩
          rw [lookupKey_setKey_none]
          refine ⟨?_, htn⟩
          intro he
          rw [he, hl] at htn
          cases htn
      rcases ih _ hviol' with ⟨t, ht, htn, hmerge⟩
      refine ⟨t, List.mem_cons_of_mem _ ht, ?_, ?_⟩
      · rw [lookupKey_setKey_none] at htn
        exact htn.2
      · rw [mergeRunning_cons_some ad s rest u hl, hmerge]

/- ### Merged-candidate list lemmas -/

theorem mem_filterMap_lookup (m : List (ResourceID × WorkloadUpdate))
    (ids : List ResourceID) (s : WorkloadUpdate)
    (hgood : ∀ k u, lookupKey m k = some u → u.resourceID = k)
    (hs : s ∈ ids.filterMap (lookupKey m)) : s.resourceID ∈ ids := by
  rcases List.mem_filterMap.mp hs with ⟨x, hx, hlk⟩
  rw [hgood x s hlk]
  exact hx

theorem filterMap_lookup_map_ids (m : List (ResourceID × WorkloadUpdate))
    (ids : List ResourceID)
    (hgood : ∀ k u, lookupKey m k = some u → u.resourceID = k)
    (htotal : ∀ x ∈ ids, lookupKey m x ≠ none) :
    (ids.filterMap (lookupKey m)).map (fun u => u.resourceID) = ids := by
  induction ids with
  | nil => rfl
  | cons x rest ih =>
    cases hx : lookupKey m x with
    | none => exact absurd hx (htotal x (List.mem_cons_self _ _))
    | some u =>
      simp only [List.filterMap_cons, hx, List.map_cons]
      rw [hgood x u hx, ih (fun y hy => htotal y (List.mem_cons_of_mem _ hy))]

/- ### `SelectWorkloads` path lemmas -/

theorem selectWorkloads_ok_eq (rc : ReleaseContext) (results : Result)
    (pre post : List WorkloadFilter) (ad : List (ResourceID × WorkloadUpdate))
    (running : List Workload) (m : List (ResourceID × WorkloadUpdate))
    (idsM : List ResourceID)
    (hw : WorkloadsForUpdate rc = .ok ad)
    (hrun : rc.someWorkloads (preFilterStage pre results ad).2 = .ok running)
    (hm : mergeRunning ad running = .ok (m, idsM)) :
    SelectWorkloads rc results pre post =
      ((postFilterStage post (preFilterStage pre results ad).1
          (idsM.filterMap (lookupKey m))).1,
        .ok (postFilterStage post (preFilterStage pre results ad).1
          (idsM.filterMap (lookupKey m))).2) := by
  unfold SelectWorkloads
  rw [hw]
  simp only [hrun, hm]

theorem selectWorkloads_load_error (rc : ReleaseContext) (results : Result)
    (pre post : List WorkloadFilter) (e : Err)
    (h : rc.loadManifests = .error e) :
    SelectWorkloads rc results pre post = (results, .error e) := by
  unfold SelectWorkloads WorkloadsForUpdate LoadManifests
  rw [h]

theorem selectWorkloads_cluster_error (rc : ReleaseContext) (results : Result)
    (pre post : List WorkloadFilter) (ad : List (ResourceID × WorkloadUpdate))
    (e : Err) (hw : WorkloadsForUpdate rc = .ok ad)
    (hrun : rc.someWorkloads (preFilterStage pre results ad).2 = .error e) :
    SelectWorkloads rc results pre post =
      ((preFilterStage pre results ad).1, .error e) := by
  unfold SelectWorkloads
  rw [hw]
  simp only [hrun]

theorem selectWorkloads_merge_error (rc : ReleaseContext) (results : Result)
    (pre post : List WorkloadFilter) (ad : List (ResourceID × WorkloadUpdate))
    (running : List Workload) (e : Err)
    (hw : WorkloadsForUpdate rc = .ok ad)
    (hrun : rc.someWorkloads (preFilterStage pre results ad).2 = .ok running)
    (hm : mergeRunning ad running = .error e) :
    SelectWorkloads rc results pre post =
      ((preFilterStage pre results ad).1, .error e) := by
  unfold SelectWorkloads
  rw [hw]
  simp only [hrun, hm]

/- ### Claim theorems -/

/-- C1: for every declared workload whose pre-filter pipeline verdict is a
rejection, its identifier is never in the identifier list passed to the
cluster query, and (for a cluster honouring its contract of returning only
queried identifiers) the result ledger entry `SelectWorkloads` leaves for
that identifier is exactly the rejection verdict of the pipeline. -/
theorem c1_prefilter_rejected (rc : ReleaseContext) (results : Result)
    (pre post : List WorkloadFilter) (ad : List (ResourceID × WorkloadUpdate))
    (e : ResourceID × WorkloadUpdate)
    (hw : WorkloadsForUpdate rc = .ok ad) (he : e ∈ ad)
    (hrej : (filterWith pre e.2).error ≠ "") :
    e.2.resourceID ∉ (preFilterStage pre results ad).2 ∧
    ∀ running,
      rc.someWorkloads (preFilterStage pre results ad).2 = .ok running →
      (∀ w ∈ running, w.id ∈ (preFilterStage pre results ad).2) →
      lookupKey (SelectWorkloads rc results pre post).1 e.2.resourceID =
        some (filterWith pre e.2) := by
  have hnd := wfu_nodup_ids rc ad hw
  have htoAsk : (preFilterStage pre results ad).2 =
      (ad.filter fun p => (filterWith pre p.2).error = "").map
        (fun p => p.2.resourceID) := by
    have h := preFilter_fold_snd pre ad (results, [])
    simpa [preFilterStage] using h
  have hnotask : e.2.resourceID ∉ (preFilterStage pre results ad).2 := by
    rw [htoAsk]
    intro hmem
    rcases List.mem_map.mp hmem with ⟨p, hp, hid⟩
    have hpad := List.mem_of_mem_filter hp
    have hpe : p = e := List.inj_on_of_nodup_map hnd hpad he hid
    rw [hpe] at hp
    have happ := List.of_mem_filter hp
    simp at happ
    exact hrej happ
  have hentry : lookupKey (preFilterStage pre results ad).1 e.2.resourceID =
      some (preVerdict pre e.2) :=
    preFilter_fold_entry pre ad (results, []) e he hnd
  have hpv : preVerdict pre e.2 = filterWith pre e.2 := by
    simp [preVerdict, hrej]
  refine ⟨hnotask, ?_⟩
  intro running hrun hcontract
  cases hmg : mergeRunning ad running with
  | error e0 =>
    rw [selectWorkloads_merge_error rc results pre post ad running e0 hw hrun
      hmg]
    rw [hentry, hpv]
  | ok pr =>
    obtain ⟨m, idsM⟩ := pr
    rw [selectWorkloads_ok_eq rc results pre post ad running m idsM hw hrun
      hmg]
    have hgood : ∀ k u, lookupKey m k = some u → u.resourceID = k :=
      mergeRunning_good ad running m idsM hmg
        (fun k u hk => (wfu_lookup_good rc ad hw k u hk).1)
    have hframe : ∀ s ∈ idsM.filterMap (lookupKey m),
        s.resourceID ≠ e.2.resourceID := by
      intro s hs heq
      have hsid : s.resourceID ∈ idsM := mem_filterMap_lookup m idsM s hgood hs
      rw [mergeRunning_ids ad running m idsM hmg] at hsid
      rcases List.mem_map.mp hsid with ⟨w, hwmem, hwid⟩
      have := hcontract w hwmem
      rw [hwid, heq] at this
      exact hnotask this
    have := postFilter_fold_frame post (idsM.filterMap (lookupKey m))
      ((preFilterStage pre results ad).1, []) e.2.resourceID hframe
    rw [postFilterStage] at *
    rw [this, hentry, hpv]

/-- Witness for C1 at a concrete run: workload `b` is rejected by the
pre-filter, is not queried, and its ledger entry is the rejection verdict. -/
theorem c1_witness :
    "b" ∉ (preFilterStage [rejectB] [] [("b", uB), ("a", uA)]).2 ∧
    lookupKey (SelectWorkloads rcMain [] [rejectB] []).1 "b" =
      some { status := "failed", error := "rejected" } := by
  have h := c1_prefilter_rejected rcMain [] [rejectB] []
    [("b", uB), ("a", uA)] ("b", uB) rfl (by decide) (by decide)
  exact ⟨h.1, h.2 [wA] rfl (by decide)⟩

/-- C2: every pre-filter-approved declared workload gets the provisional
skipped/not-in-cluster verdict in the ledger and its identifier in the
cluster-query list; that list holds exactly the approved identifiers (never
the full declared set); and `SelectWorkloads` consults the cluster
collaborator only at that list — any context agreeing with `rc` on the
manifests and on the query at exactly that list runs identically. -/
theorem c2_prefilter_approved (rc rc' : ReleaseContext) (results : Result)
    (pre post : List WorkloadFilter) (ad : List (ResourceID × WorkloadUpdate))
    (hw : WorkloadsForUpdate rc = .ok ad) :
    (∀ e ∈ ad, (filterWith pre e.2).error = "" →
      e.2.resourceID ∈ (preFilterStage pre results ad).2 ∧
      lookupKey (preFilterStage pre results ad).1 e.2.resourceID =
        some { status := ReleaseStatusSkipped, error := NotInCluster }) ∧
    (preFilterStage pre results ad).2 =
      (ad.filter fun p => (filterWith pre p.2).error = "").map
        (fun p => p.2.resourceID) ∧
    (rc'.repoDir = rc.repoDir → rc'.loadManifests = rc.loadManifests →
      rc'.someWorkloads (preFilterStage pre results ad).2 =
        rc.someWorkloads (preFilterStage pre results ad).2 →
      SelectWorkloads rc' results pre post =
        SelectWorkloads rc results pre post) := by
  have hnd := wfu_nodup_ids rc ad hw
  have htoAsk : (preFilterStage pre results ad).2 =
      (ad.filter fun p => (filterWith pre p.2).error = "").map
        (fun p => p.2.resourceID) := by
    have h := preFilter_fold_snd pre ad (results, [])
    simpa [preFilterStage] using h
  refine ⟨?_, htoAsk, ?_⟩
  · intro e he happ
    constructor
    · rw [htoAsk]
      exact List.mem_map_of_mem _ (List.mem_filter.mpr ⟨he, by simp [happ]⟩)
    · have hentry := preFilter_fold_entry pre ad (results, []) e he hnd
      rw [preVerdict, if_pos happ] at hentry
      exact hentry
  · intro h1 h2 h3
    have hw' : WorkloadsForUpdate rc' = .ok ad := by
      have hstep : indexStep rc' = indexStep rc := by
        funext defined res
        unfold indexStep mkWorkloadUpdate
        rw [h1]
      unfold WorkloadsForUpdate LoadManifests at hw ⊢
      rw [h2, hstep]
      exact hw
    unfold SelectWorkloads
    simp only [hw, hw']
    rw [h3]

/-- Witness for C2 at a concrete run: workload `a` passes the pre-filter,
gets the provisional verdict, the query list is exactly `[a]` (not the full
declared set), and the run only depends on the answer of the cluster at `[a]`. -/
theorem c2_witness :
    ("a" ∈ (preFilterStage [rejectB] [] [("b", uB), ("a", uA)]).2 ∧
      lookupKey (preFilterStage [rejectB] [] [("b", uB), ("a", uA)]).1 "a" =
        some { status := ReleaseStatusSkipped, error := NotInCluster }) ∧
    (preFilterStage [rejectB] [] [("b", uB), ("a", uA)]).2 = ["a"] ∧
    SelectWorkloads rcMain [] [rejectB] [] =
      SelectWorkloads rcMain [] [rejectB] [] := by
  have h := c2_prefilter_approved rcMain rcMain [] [rejectB] []
    [("b", uB), ("a", uA)] rfl
  refine ⟨h.1 ("a", uA) (by decide) (by decide), ?_, ?_⟩
  · rw [h.2.1]
    decide
  · exact h.2.2 rfl rfl rfl

/-- C10: the pre-filter stage of `SelectWorkloads` keys approval solely on
the `Error` field of the verdict: the identifier of a declared workload goes to the
cluster query exactly when that field is empty, and whenever the verdict has
an empty `Error` — whatever its `Status` — the ledger entry is overwritten
with the provisional skipped/not-in-cluster verdict and the identifier is
still queried. -/
theorem c10_error_field_decides (rc : ReleaseContext) (results : Result)
    (pre : List WorkloadFilter) (ad : List (ResourceID × WorkloadUpdate))
    (hw : WorkloadsForUpdate rc = .ok ad) :
    (∀ e ∈ ad, (e.2.resourceID ∈ (preFilterStage pre results ad).2 ↔
      (filterWith pre e.2).error = "")) ∧
    (∀ e ∈ ad, ∀ st, filterWith pre e.2 = { status := st, error := "" } →
      lookupKey (preFilterStage pre results ad).1 e.2.resourceID =
        some { status := ReleaseStatusSkipped, error := NotInCluster } ∧
      e.2.resourceID ∈ (preFilterStage pre results ad).2) := by
  have hnd := wfu_nodup_ids rc ad hw
  have htoAsk : (preFilterStage pre results ad).2 =
      (ad.filter fun p => (filterWith pre p.2).error = "").map
        (fun p => p.2.resourceID) := by
    have h := preFilter_fold_snd pre ad (results, [])
    simpa [preFilterStage] using h
  have hiff : ∀ e ∈ ad, (e.2.resourceID ∈ (preFilterStage pre results ad).2 ↔
      (filterWith pre e.2).error = "") := by
    intro e he
    rw [htoAsk]
    constructor
    · intro hmem
      rcases List.mem_map.mp hmem with ⟨p, hp, hid⟩
      have hpad := List.mem_of_mem_filter hp
      have hpe : p = e := List.inj_on_of_nodup_map hnd hpad he hid
      rw [hpe] at hp
      have happ := List.of_mem_filter hp
      simpa using happ
    · intro happ
      exact List.mem_map_of_mem _ (List.mem_filter.mpr ⟨he, by simp [happ]⟩)
  refine ⟨hiff, ?_⟩
  intro e he st hst
  have happ : (filterWith pre e.2).error = "" := by rw [hst]
  have hentry := preFilter_fold_entry pre ad (results, []) e he hnd
  rw [preVerdict, if_pos happ] at hentry
  exact ⟨hentry, (hiff e he).mpr happ⟩

/-- Witness for C10 at a concrete run: a pre-filter answering status
`failed` with an empty error still lets both workloads through to the
cluster query, with provisional ledger entries. -/
theorem c10_witness :
    (lookupKey (preFilterStage [oddFilter] [] [("b", uB), ("a", uA)]).1 "b" =
      some { status := ReleaseStatusSkipped, error := NotInCluster } ∧
      "b" ∈ (preFilterStage [oddFilter] [] [("b", uB), ("a", uA)]).2) ∧
    oddFilter uB = { status := "failed", error := "" } := by
  have h := c10_error_field_decides rcMain [] [oddFilter]
    [("b", uB), ("a", uA)] rfl
  exact ⟨h.2 ("b", uB) (by decide) "" (by decide), by decide⟩

/-- C3: an identifier placed in the cluster-query list that the cluster does
not return keeps the provisional skipped/not-in-cluster verdict in the final
ledger when `SelectWorkloads` completes, and does not appear among the
returned approved candidates. -/
theorem c3_not_returned_stays_provisional (rc : ReleaseContext)
    (results : Result) (pre post : List WorkloadFilter)
    (ad : List (ResourceID × WorkloadUpdate)) (x : ResourceID)
    (running : List Workload) (lf : Result) (approved : List WorkloadUpdate)
    (hw : WorkloadsForUpdate rc = .ok ad)
    (hx : x ∈ (preFilterStage pre results ad).2)
    (hrun : rc.someWorkloads (preFilterStage pre results ad).2 = .ok running)
    (hnr : x ∉ running.map Workload.id)
    (hsel : SelectWorkloads rc results pre post = (lf, .ok approved)) :
    lookupKey lf x =
      some { status := ReleaseStatusSkipped, error := NotInCluster } ∧
    x ∉ approved.map (fun u => u.resourceID) := by
  have hnd := wfu_nodup_ids rc ad hw
  have htoAsk : (preFilterStage pre results ad).2 =
      (ad.filter fun p => (filterWith pre p.2).error = "").map
        (fun p => p.2.resourceID) := by
    have h := preFilter_fold_snd pre ad (results, [])
    simpa [preFilterStage] using h
  -- the provisional entry is in the pre-stage ledger
  have hentry : lookupKey (preFilterStage pre results ad).1 x =
      some { status := ReleaseStatusSkipped, error := NotInCluster } := by
    rw [htoAsk] at hx
    rcases List.mem_map.mp hx with ⟨p, hp, hid⟩
    have hpad := List.mem_of_mem_filter hp
    have happ := List.of_mem_filter hp
    simp only [decide_eq_true_eq] at happ
    have h := preFilter_fold_entry pre ad (results, []) p hpad hnd
    rw [preVerdict, if_pos happ] at h
    rw [← hid]
    exact h
  cases hmg : mergeRunning ad running with
  | error e0 =>
    rw [selectWorkloads_merge_error rc results pre post ad running e0 hw hrun
      hmg] at hsel
    cases hsel
  | ok pr =>
    obtain ⟨m, idsM⟩ := pr
    rw [selectWorkloads_ok_eq rc results pre post ad running m idsM hw hrun
      hmg] at hsel
    have hgood : ∀ k u, lookupKey m k = some u → u.resourceID = k :=
      mergeRunning_good ad running m idsM hmg
        (fun k u hk => (wfu_lookup_good rc ad hw k u hk).1)
    have hfpsx : ∀ s ∈ idsM.filterMap (lookupKey m), s.resourceID ≠ x := by
      intro s hs heq
      have hsid : s.resourceID ∈ idsM := mem_filterMap_lookup m idsM s hgood hs
      rw [mergeRunning_ids ad running m idsM hmg, heq] at hsid
      exact hnr hsid
    have hlf : lf = (postFilterStage post (preFilterStage pre results ad).1
        (idsM.filterMap (lookupKey m))).1 := by
      have := congrArg Prod.fst hsel
      exact this.symm
    have happ : approved = (postFilterStage post
        (preFilterStage pre results ad).1
        (idsM.filterMap (lookupKey m))).2 := by
      have := congrArg Prod.snd hsel
      simp only [Except.ok.injEq] at this
      exact this.symm
    constructor
    · rw [hlf]
      have hfr := postFilter_fold_frame post (idsM.filterMap (lookupKey m))
        ((preFilterStage pre results ad).1, []) x hfpsx
      rw [postFilterStage]
      rw [hfr]
      exact hentry
    · rw [happ]
      intro hmem
      rcases List.mem_map.mp hmem with ⟨u, hu, huid⟩
      have hsnd := postFilter_fold_snd post (idsM.filterMap (lookupKey m))
        ((preFilterStage pre results ad).1, [])
      rw [postFilterStage] at hu
      rw [hsnd] at hu
      simp only [List.nil_append] at hu
      have := List.mem_of_mem_filter hu
      exact hfpsx u this huid

/-- Witness for C3 at a concrete run: workload `b` is queried but the
cluster reports only `a`; `b` keeps its not-in-cluster verdict and is not
among the approved updates. -/
theorem c3_witness :
    lookupKey (SelectWorkloads rcMain [] [] []).1 "b" =
      some { status := ReleaseStatusSkipped, error := NotInCluster } ∧
    "b" ∉ [{ uA with workload := some wA }].map (fun u => u.resourceID) := by
  have h := c3_not_returned_stays_provisional rcMain [] [] []
    [("b", uB), ("a", uA)] "b" [wA] (SelectWorkloads rcMain [] [] []).1
    [{ uA with workload := some wA }] rfl (by decide) rfl (by decide) rfl
  exact h

/-- C4: when `SelectWorkloads` completes, every merged candidate (declared
and returned by a contract-honouring cluster, which returns each identifier
at most once) has the verdict of the post-filter pipeline as its final ledger
entry — overwriting the provisional one — and is in the returned approved
list exactly when the status of that verdict is success or the empty default. -/
theorem c4_postfilter_verdict (rc : ReleaseContext) (results : Result)
    (pre post : List WorkloadFilter) (ad : List (ResourceID × WorkloadUpdate))
    (running : List Workload) (m : List (ResourceID × WorkloadUpdate))
    (idsM : List ResourceID) (lf : Result) (approved : List WorkloadUpdate)
    (hw : WorkloadsForUpdate rc = .ok ad)
    (hrun : rc.someWorkloads (preFilterStage pre results ad).2 = .ok running)
    (hnd : (running.map Workload.id).Nodup)
    (hmg : mergeRunning ad running = .ok (m, idsM))
    (hsel : SelectWorkloads rc results pre post = (lf, .ok approved)) :
    ∀ s ∈ idsM.filterMap (lookupKey m),
      lookupKey lf s.resourceID = some (filterWith post s) ∧
      (s ∈ approved ↔ ((filterWith post s).status = ReleaseStatusSuccess ∨
        (filterWith post s).status = "")) := by
  have hgood : ∀ k u, lookupKey m k = some u → u.resourceID = k :=
    mergeRunning_good ad running m idsM hmg
      (fun k u hk => (wfu_lookup_good rc ad hw k u hk).1)
  have htotal : ∀ x ∈ idsM, lookupKey m x ≠ none :=
    mergeRunning_total ad running m idsM hmg
  have hmapids : (idsM.filterMap (lookupKey m)).map (fun u => u.resourceID) =
      idsM := filterMap_lookup_map_ids m idsM hgood htotal
  have hndfps : ((idsM.filterMap (lookupKey m)).map
      (fun u => u.resourceID)).Nodup := by
    rw [hmapids, mergeRunning_ids ad running m idsM hmg]
    exact hnd
  rw [selectWorkloads_ok_eq rc results pre post ad running m idsM hw hrun
    hmg] at hsel
  have hlf : lf = (postFilterStage post (preFilterStage pre results ad).1
      (idsM.filterMap (lookupKey m))).1 :=
    (congrArg Prod.fst hsel).symm
  have happ : approved = (postFilterStage post
      (preFilterStage pre results ad).1 (idsM.filterMap (lookupKey m))).2 := by
    have h := congrArg Prod.snd hsel
    simp only [Except.ok.injEq] at h
    exact h.symm
  intro s hs
  constructor
  · rw [hlf, postFilterStage]
    exact postFilter_fold_entry post (idsM.filterMap (lookupKey m))
      ((preFilterStage pre results ad).1, []) s hs hndfps
  · have hsnd := postFilter_fold_snd post (idsM.filterMap (lookupKey m))
      ((preFilterStage pre results ad).1, [])
    rw [happ, postFilterStage, hsnd, List.nil_append]
    constructor
    · intro hmem
      have h := List.of_mem_filter hmem
      simpa using h
    · intro hcond
      exact List.mem_filter.mpr ⟨hs, by simpa using hcond⟩

/-- Witness for C4 at a concrete run: merged candidate `a` gets the
explicit success verdict of the post-filter in the ledger (overwriting the
provisional entry) and is returned as approved. -/
theorem c4_witness :
    lookupKey (SelectWorkloads rcMain [] [] [approveAll]).1 "a" =
      some (filterWith [approveAll] { uA with workload := some wA }) ∧
    ({ uA with workload := some wA } ∈ [{ uA with workload := some wA }] ↔
      ((filterWith [approveAll] { uA with workload := some wA }).status =
          ReleaseStatusSuccess ∨
        (filterWith [approveAll] { uA with workload := some wA }).status =
          "")) := by
  have h := c4_postfilter_verdict rcMain [] [] [approveAll]
    [("b", uB), ("a", uA)] [wA] [("a", { uA with workload := some wA }),
      ("b", uB)] ["a"] (SelectWorkloads rcMain [] [] [approveAll]).1
    [{ uA with workload := some wA }] rfl rfl (by decide) rfl rfl
    { uA with workload := some wA } (by decide)
  exact h

/-- C5 counterexample: the cluster returns workload `b`, which is declared
but was not in the cluster-query list (only `a` was queried, `b` was
rejected by the pre-filter).  `SelectWorkloads` does not fail: it merges and
approves `b`, overwriting its rejection verdict — refuting the claim that a
returned identifier outside the query set aborts the call. -/
theorem c5_counterexample :
    WorkloadsForUpdate rcRogue = .ok [("b", uB), ("a", uA)] ∧
    (preFilterStage [rejectB] [] [("b", uB), ("a", uA)]).2 = ["a"] ∧
    SelectWorkloads rcRogue [] [rejectB] [] =
      ([("b", { status := "", error := "" }),
        ("a", { status := ReleaseStatusSkipped, error := NotInCluster })],
        .ok [{ uB with workload := some wB }]) :=
  ⟨rfl, rfl, rfl⟩

/-- C5 (amended): if the cluster returns a workload whose identifier is not
among the *declared* workloads, `SelectWorkloads` fails immediately with an
error naming that identifier and no approved list, and that identifier has
no per-workload verdict: its ledger entry is whatever the caller supplied. -/
theorem c5_undefined_id_aborts (rc : ReleaseContext) (results : Result)
    (pre post : List WorkloadFilter) (ad : List (ResourceID × WorkloadUpdate))
    (running : List Workload)
    (hw : WorkloadsForUpdate rc = .ok ad)
    (hrun : rc.someWorkloads (preFilterStage pre results ad).2 = .ok running)
    (hviol : ∃ s ∈ running, lookupKey ad s.id = none) :
    ∃ t ∈ running, lookupKey ad t.id = none ∧
      SelectWorkloads rc results pre post =
        ((preFilterStage pre results ad).1,
          .error ("controller " ++ t.id ++
            " was requested and is running, but is not defined")) ∧
      lookupKey (preFilterStage pre results ad).1 t.id =
        lookupKey results t.id := by
  rcases mergeRunning_error_of_missing ad running hviol with
    ⟨t, ht, htn, hmerge⟩
  refine ⟨t, ht, htn, ?_, ?_⟩
  · exact selectWorkloads_merge_error rc results pre post ad running _ hw hrun
      hmerge
  · have hgoodKeys := wfu_good rc ad hw
    have hframe : ∀ e ∈ ad, e.2.resourceID ≠ t.id := by
      intro e he heq
      have hk := (hgoodKeys e he).1
      have hmem : t.id ∈ ad.map Prod.fst := by
        rw [← heq, ← hk]
        exact List.mem_map_of_mem _ he
      rw [lookupKey_eq_none_iff] at htn
      exact htn hmem
    exact preFilter_fold_frame pre ad (results, []) t.id hframe

/-- Witness for the amended C5: the cluster reports undeclared workload `z`;
the call aborts with an error naming `z`, the ledger keeps only the
pre-filter-stage entries. -/
theorem c5_witness :
    SelectWorkloads rcGhost [] [] [] =
      ([("a", { status := ReleaseStatusSkipped, error := NotInCluster })],
        .error "controller z was requested and is running, but is not defined") ∧
    lookupKey [("a", uA)] "z" = (none : Option WorkloadUpdate) := by
  have h := c5_undefined_id_aborts rcGhost [] [] [] [("a", uA)] [wZ] rfl rfl
    ⟨wZ, by decide, rfl⟩
  rcases h with ⟨t, ht, htn, hsel, hledger⟩
  have htz : t = wZ := by
    rcases List.mem_cons.mp ht with h1 | h1
    · exact h1
    · cases h1
  subst htz
  exact ⟨hsel, htn⟩

/-- C6 counterexample: the cluster query fails, which is an aborting error,
yet the caller-supplied (empty) ledger has already been mutated: it carries
the provisional verdict recorded by the pre-filter stage. -/
theorem c6_counterexample :
    SelectWorkloads rcDown [] [] [] =
      ([("a", { status := ReleaseStatusSkipped, error := NotInCluster })],
        .error "cluster unavailable") ∧
    ([("a", { status := ReleaseStatusSkipped, error := NotInCluster })] :
      Result) ≠ [] :=
  ⟨rfl, by decide⟩

/-- C6 (amended): on a manifest-load failure the ledger of the caller is returned
unchanged; on a cluster-query failure or on the contract-violation error the
returned ledger is exactly the ledger as already mutated by the pre-filter
stage (pre-filter verdicts and provisional defaults; no post-filter
verdicts). -/
theorem c6_abort_ledger_tiers (rc : ReleaseContext) (results : Result)
    (pre post : List WorkloadFilter) :
    (∀ e, rc.loadManifests = .error e →
      SelectWorkloads rc results pre post = (results, .error e)) ∧
    (∀ ad e, WorkloadsForUpdate rc = .ok ad →
      rc.someWorkloads (preFilterStage pre results ad).2 = .error e →
      SelectWorkloads rc results pre post =
        ((preFilterStage pre results ad).1, .error e)) ∧
    (∀ ad running e, WorkloadsForUpdate rc = .ok ad →
      rc.someWorkloads (preFilterStage pre results ad).2 = .ok running →
      mergeRunning ad running = .error e →
      SelectWorkloads rc results pre post =
        ((preFilterStage pre results ad).1, .error e)) :=
  ⟨fun e h => selectWorkloads_load_error rc results pre post e h,
    fun ad e hw hrun => selectWorkloads_cluster_error rc results pre post ad e
      hw hrun,
    fun ad running e hw hrun hm => selectWorkloads_merge_error rc results pre
      post ad running e hw hrun hm⟩

/-- Witness for the amended C6 at the three aborting tiers: load failure
leaves the empty ledger empty; cluster failure and the contract violation
leave exactly the pre-filter-stage ledger. -/
theorem c6_witness :
    SelectWorkloads rcBadRepo [] [] [] = ([], .error "load failed") ∧
    SelectWorkloads rcDown [] [] [] =
      ((preFilterStage [] [] [("a", uA)]).1, .error "cluster unavailable") ∧
    SelectWorkloads rcGhost [] [] [] =
      ((preFilterStage [] [] [("a", uA)]).1,
        .error
          "controller z was requested and is running, but is not defined") :=
  ⟨(c6_abort_ledger_tiers rcBadRepo [] [] []).1 "load failed" rfl,
    (c6_abort_ledger_tiers rcDown [] [] []).2.1 [("a", uA)]
      "cluster unavailable" rfl rfl,
    (c6_abort_ledger_tiers rcGhost [] [] []).2.2 [("a", uA)] [wZ]
      "controller z was requested and is running, but is not defined" rfl rfl
      rfl⟩

/- ### Write-phase helper lemmas -/

theorem writeUpdates_cons_ok (rc : ReleaseContext) (fs : FS)
    (u : WorkloadUpdate) (rest : List WorkloadUpdate) (b0 b1 : String)
    (h1 : lookupKey fs.files u.manifestPath = some b0)
    (h2 : applyContainerUpdates rc u.resourceID b0 u.updates = .ok b1)
    (h3 : u.manifestPath ∉ fs.unwritable) :
    WriteUpdates rc fs (u :: rest) =
      WriteUpdates rc
        { fs with files := setKey fs.files u.manifestPath b1 } rest := by
  simp only [WriteUpdates, readFile, h1, h2, writeFile, if_neg h3]

theorem writeUpdates_cons_read_error (rc : ReleaseContext) (fs : FS)
    (u : WorkloadUpdate) (rest : List WorkloadUpdate)
    (h1 : lookupKey fs.files u.manifestPath = none) :
    WriteUpdates rc fs (u :: rest) =
      (fs, some ("open " ++ u.manifestPath ++
        ": no such file or directory")) := by
  simp only [WriteUpdates, readFile, h1]

theorem writeUpdates_cons_update_error (rc : ReleaseContext) (fs : FS)
    (u : WorkloadUpdate) (rest : List WorkloadUpdate) (b0 : String) (e : Err)
    (h1 : lookupKey fs.files u.manifestPath = some b0)
    (h2 : applyContainerUpdates rc u.resourceID b0 u.updates = .error e) :
    WriteUpdates rc fs (u :: rest) =
      (fs, some ("updating resource " ++ u.resourceID ++ " in " ++
        u.resource.source ++ ": " ++ e)) := by
  simp only [WriteUpdates, readFile, h1, h2]

theorem writeUpdates_cons_write_error (rc : ReleaseContext) (fs : FS)
    (u : WorkloadUpdate) (rest : List WorkloadUpdate) (b0 b1 : String)
    (h1 : lookupKey fs.files u.manifestPath = some b0)
    (h2 : applyContainerUpdates rc u.resourceID b0 u.updates = .ok b1)
    (h3 : u.manifestPath ∈ fs.unwritable) :
    WriteUpdates rc fs (u :: rest) =
      (fs, some ("writing updated file " ++ u.resource.source ++ ": " ++
        ("open " ++ u.manifestPath ++ ": permission denied"))) := by
  simp only [WriteUpdates, readFile, h1, h2, writeFile, if_pos h3]

/-- C7: `WriteUpdates` processes the batch strictly in list order.  Each
step reads the current bytes of the file of its entry, applies the
per-container instructions of that entry in sequence to the in-memory
buffer, writes the result back to the same path, and only then moves to the
rest of the batch; hence with two updates for the same file the read of the
second step observes the bytes already written by the first step, and the
final contents are the second rewrite applied to the output of the first
rewrite. -/
theorem c7_writeUpdates_in_order (rc : ReleaseContext) (fs : FS)
    (u u1 u2 : WorkloadUpdate) (rest : List WorkloadUpdate)
    (p b0 b1 b2 : String) (c : ContainerUpdate) (cs : List ContainerUpdate) :
    (lookupKey fs.files u.manifestPath = some b0 →
      applyContainerUpdates rc u.resourceID b0 u.updates = .ok b1 →
      u.manifestPath ∉ fs.unwritable →
      WriteUpdates rc fs (u :: rest) =
        WriteUpdates rc
          { fs with files := setKey fs.files u.manifestPath b1 } rest) ∧
    (rc.updateImage b0 u.resourceID c.container c.target = .ok b1 →
      applyContainerUpdates rc u.resourceID b0 (c :: cs) =
        applyContainerUpdates rc u.resourceID b1 cs) ∧
    (u1.manifestPath = p → u2.manifestPath = p →
      lookupKey fs.files p = some b0 → p ∉ fs.unwritable →
      applyContainerUpdates rc u1.resourceID b0 u1.updates = .ok b1 →
      applyContainerUpdates rc u2.resourceID b1 u2.updates = .ok b2 →
      WriteUpdates rc fs [u1, u2] =
        ({ fs with files := setKey (setKey fs.files p b1) p b2 }, none) ∧
      lookupKey (WriteUpdates rc fs [u1, u2]).1.files p = some b2) := by
  refine ⟨?_, ?_, ?_⟩
  · intro h1 h2 h3
    exact writeUpdates_cons_ok rc fs u rest b0 b1 h1 h2 h3
  · intro hi
    simp only [applyContainerUpdates, hi]
  · intro hp1 hp2 h1 h3 ha1 ha2
    have step1 : WriteUpdates rc fs [u1, u2] =
        WriteUpdates rc { fs with files := setKey fs.files p b1 } [u2] := by
      rw [← hp1] at h1 h3 ⊢
      exact writeUpdates_cons_ok rc fs u1 [u2] b0 b1 h1 ha1 h3
    have hread2 : lookupKey (setKey fs.files p b1) u2.manifestPath =
        some b1 := by
      rw [hp2]
      exact lookupKey_setKey_self fs.files p b1
    have step2 : WriteUpdates rc { fs with files := setKey fs.files p b1 }
        [u2] =
        ({ fs with files := setKey (setKey fs.files p b1) p b2 }, none) := by
      rw [writeUpdates_cons_ok rc _ u2 [] b1 b2 hread2 ha2
        (by rw [hp2]; exact h3)]
      rw [hp2]
      rfl
    have hfinal : WriteUpdates rc fs [u1, u2] =
        ({ fs with files := setKey (setKey fs.files p b1) p b2 }, none) :=
      step1.trans step2
    refine ⟨hfinal, ?_⟩
    rw [hfinal]
    exact lookupKey_setKey_self _ _ _

/-- Witness for C7: two updates touching the same file `repo/a.yaml`; after
`WriteUpdates` the file holds both rewrites, the second applied on top of
the first. -/
theorem c7_witness :
    WriteUpdates rcMain fs0 [uW1, uW2] =
      ({ fs0 with files := setKey (setKey fs0.files "repo/a.yaml" "manifest|app=img:2") "repo/a.yaml" "manifest|app=img:2|sidecar=side:2" }, none) ∧
    lookupKey (WriteUpdates rcMain fs0 [uW1, uW2]).1.files "repo/a.yaml" =
      some "manifest|app=img:2|sidecar=side:2" := by
  have h := (c7_writeUpdates_in_order rcMain fs0 uW1 uW1 uW2 [] "repo/a.yaml"
    "manifest" "manifest|app=img:2" "manifest|app=img:2|sidecar=side:2" cu1
    []).2.2 rfl rfl rfl (by decide) rfl rfl
  exact h

/-- C8: any read, image-update, or write failure stops `WriteUpdates` at the
failing entry: the remaining updates of the batch are not processed, the file
system is exactly as it was before the failing entry (so entries already
written keep their new contents — no rollback), and the returned error names
the offending file (the read error carries the manifest path; update and
write errors are wrapped with the source file of the resource). -/
theorem c8_writeUpdates_failure (rc : ReleaseContext) (fs : FS)
    (u u1 u2 : WorkloadUpdate) (rest : List WorkloadUpdate)
    (b0 b1 : String) (e : Err) :
    (lookupKey fs.files u.manifestPath = none →
      WriteUpdates rc fs (u :: rest) =
        (fs, some ("open " ++ u.manifestPath ++
          ": no such file or directory"))) ∧
    (lookupKey fs.files u.manifestPath = some b0 →
      applyContainerUpdates rc u.resourceID b0 u.updates = .error e →
      WriteUpdates rc fs (u :: rest) =
        (fs, some ("updating resource " ++ u.resourceID ++ " in " ++
          u.resource.source ++ ": " ++ e))) ∧
    (lookupKey fs.files u.manifestPath = some b0 →
      applyContainerUpdates rc u.resourceID b0 u.updates = .ok b1 →
      u.manifestPath ∈ fs.unwritable →
      WriteUpdates rc fs (u :: rest) =
        (fs, some ("writing updated file " ++ u.resource.source ++ ": " ++
          ("open " ++ u.manifestPath ++ ": permission denied")))) ∧
    (lookupKey fs.files u1.manifestPath = some b0 →
      applyContainerUpdates rc u1.resourceID b0 u1.updates = .ok b1 →
      u1.manifestPath ∉ fs.unwritable →
      lookupKey (setKey fs.files u1.manifestPath b1) u2.manifestPath = none →
      WriteUpdates rc fs [u1, u2] =
        ({ fs with files := setKey fs.files u1.manifestPath b1 },
          some ("open " ++ u2.manifestPath ++
            ": no such file or directory"))) := by
  refine ⟨?_, ?_, ?_, ?_⟩
  · intro h1
    exact writeUpdates_cons_read_error rc fs u rest h1
  · intro h1 h2
    exact writeUpdates_cons_update_error rc fs u rest b0 e h1 h2
  · intro h1 h2 h3
    exact writeUpdates_cons_write_error rc fs u rest b0 b1 h1 h2 h3
  · intro h1 h2 h3 h4
    rw [writeUpdates_cons_ok rc fs u1 [u2] b0 b1 h1 h2 h3]
    exact writeUpdates_cons_read_error rc _ u2 [] h4

/-- Witness for C8 at the four concrete failure scenarios: a missing first
file stops the batch before the second entry; an image-update failure and a
write failure name the source file of the resource; and after a successful first
write a missing second file aborts while the first write is kept. -/
theorem c8_witness :
    WriteUpdates rcMain fs0 [uW3, uW1] =
      (fs0, some "open repo/missing.yaml: no such file or directory") ∧
    WriteUpdates rcBadImage fs0 [uW1] =
      (fs0, some "updating resource a in a.yaml: container not found") ∧
    WriteUpdates rcMain fsRO [uW1] =
      (fsRO,
        some "writing updated file a.yaml: open repo/a.yaml: permission denied") ∧
    WriteUpdates rcMain fs0 [uW1, uW3] =
      ({ fs0 with files := setKey fs0.files "repo/a.yaml" "manifest|app=img:2" },
        some "open repo/missing.yaml: no such file or directory") := by
  refine ⟨?_, ?_, ?_, ?_⟩
  · exact (c8_writeUpdates_failure rcMain fs0 uW3 uW3 uW3 [uW1] "" "" "").1 rfl
  · exact (c8_writeUpdates_failure rcBadImage fs0 uW1 uW1 uW1 [] "manifest"
      "" "container not found").2.1 rfl rfl
  · exact (c8_writeUpdates_failure rcMain fsRO uW1 uW1 uW1 [] "manifest"
      "manifest|app=img:2" "").2.2.1 rfl rfl (by decide)
  · exact (c8_writeUpdates_failure rcMain fs0 uW1 uW1 uW3 [] "manifest"
      "manifest|app=img:2" "").2.2.2 rfl rfl (by decide) rfl

/- ### Manifest-index characterization -/

theorem index_fold_lookup (rc : ReleaseContext) (resources : List Resource)
    (hnd : ((resources.filter fun r => r.isWorkload).map
      (fun r => r.resourceID)).Nodup) (k : ResourceID) (v : WorkloadUpdate) :
    lookupKey (resources.foldl (indexStep rc) []) k = some v ↔
      ∃ r ∈ resources, r.isWorkload = true ∧ r.resourceID = k ∧
        v = mkWorkloadUpdate rc r := by
  induction resources using List.reverseRecOn with
  | nil => simp [lookupKey]
  | append_singleton l r ih =>
    rw [List.foldl_append, List.foldl_cons, List.foldl_nil]
    rw [List.filter_append, List.map_append] at hnd
    by_cases hr : r.isWorkload
    · have hfil : List.filter (fun x => x.isWorkload) [r] = [r] := by
        simp [hr]
      rw [hfil] at hnd
      rw [List.nodup_append] at hnd
      obtain ⟨hnd1, hnd2, hdisj⟩ := hnd
      have hnotin : r.resourceID ∉
          (l.filter fun x => x.isWorkload).map (fun x => x.resourceID) := by
        intro hmem
        exact hdisj hmem (by simp)
      simp only [indexStep, hr, if_true]
      by_cases hk : r.resourceID = k
      · subst hk
        rw [lookupKey_setKey_self]
        constructor
        · intro hv
          have hv' : v = mkWorkloadUpdate rc r := by
            cases hv
            rfl
          exact ⟨r, by simp, hr, rfl, hv'⟩
        · rintro ⟨r', hr', hw', hid', hv'⟩
          rcases List.mem_append.mp hr' with h1 | h1
          · exfalso
            apply hnotin
            rw [← hid']
            exact List.mem_map_of_mem _
              (List.mem_filter.mpr ⟨h1, by simp [hw']⟩)
          · have hre : r' = r := by simpa using h1
            subst hre
            rw [hv']
      · rw [lookupKey_setKey_ne _ _ _ _ (fun hh => hk hh.symm)]
        rw [ih hnd1]
        constructor
        · rintro ⟨r', hr', hw', hid', hv'⟩
          exact ⟨r', List.mem_append_left _ hr', hw', hid', hv'⟩
        · rintro ⟨r', hr', hw', hid', hv'⟩
          rcases List.mem_append.mp hr' with h1 | h1
          · exact ⟨r', h1, hw', hid', hv'⟩
          · exfalso
            have hre : r' = r := by simpa using h1
            subst hre
            exact hk hid'
    · have hfil : List.filter (fun x => x.isWorkload) [r] = [] := by
        simp [hr]
      rw [hfil, List.map_nil, List.append_nil] at hnd
      simp only [indexStep, hr, Bool.false_eq_true, if_false]
      rw [ih hnd]
      constructor
      · rintro ⟨r', h1, hw', hid', hv'⟩
        exact ⟨r', List.mem_append_left _ h1, hw', hid', hv'⟩
      · rintro ⟨r', hr', hw', hid', hv'⟩
        rcases List.mem_append.mp hr' with h1 | h1
        · exact ⟨r', h1, hw', hid', hv'⟩
        · exfalso
          have hre : r' = r := by simpa using h1
          subst hre
          exact hr hw'

/-- C9: when the manifest load succeeds (and the deployable resources carry
distinct identifiers, as map keying presumes), the mapping returned by
`WorkloadsForUpdate` has an entry for exactly the loaded resources with the
deployable-workload capability, keyed by the identifier of the resource, the
candidate carrying that identifier, the resource, and the checkout root
joined with the relative source of the resource as manifest path. -/
theorem c9_workloads_for_update (rc : ReleaseContext)
    (resources : List Resource) (m : List (ResourceID × WorkloadUpdate))
    (hl : rc.loadManifests = .ok resources)
    (hnd : ((resources.filter fun r => r.isWorkload).map
      (fun r => r.resourceID)).Nodup)
    (hm : WorkloadsForUpdate rc = .ok m) (k : ResourceID)
    (v : WorkloadUpdate) :
    lookupKey m k = some v ↔
      ∃ r ∈ resources, r.isWorkload = true ∧ r.resourceID = k ∧
        v = mkWorkloadUpdate rc r := by
  have hunf : WorkloadsForUpdate rc =
      .ok (resources.foldl (indexStep rc) []) := by
    unfold WorkloadsForUpdate LoadManifests
    rw [hl]
  rw [hunf] at hm
  have hmeq := Except.ok.inj hm
  rw [← hmeq]
  exact index_fold_lookup rc resources hnd k v

/-- Witness for C9 at a concrete load of three resources (two deployable,
one not): the mapping holds the candidate of `a`, built from `resA` with the
joined manifest path. -/
theorem c9_witness :
    lookupKey [("b", uB), ("a", uA)] "a" = some uA ∧
    uA.manifestPath = filepathJoin "repo" resA.source := by
  constructor
  · exact (c9_workloads_for_update rcMain [resA, resB, resC]
      [("b", uB), ("a", uA)] rfl (by decide) rfl "a" uA).mpr
      ⟨resA, by decide, rfl, rfl, rfl⟩
  · rfl
